import Mathlib

/-!
Verification development for the event-store library: a shallow embedding of
the Postgres and SQLite event stores (`event-store.ts`) and of the event
provider (`providers/event.ts`), with theorems checking the natural-language
specification against the embedded code.

Database tables are embedded as Lean lists of rows; a SQL
`SELECT ... WHERE p ORDER BY created` is embedded as `List.filter p` followed
by a stable sort on the `created` column (the queries order by `created`
alone; a stable sort returns ties in table order, one of the orders the SQL
permits). ISO-8601 timestamps are lexicographically ordered strings; only
their ordering matters, so `created` is embedded as `Nat`. `data`, `meta`
and reducer states are opaque payloads, embedded as `String`.
-/

/-- A row of the `events` table (fields of the source `EventRecord`). -/
structure EventRecord where
  id : String
  stream : String
  type : String
  data : String
  meta : String
  created : Nat
  recorded : Nat
  deriving DecidableEq, Repr, Inhabited

/-- Read direction option (`"asc" | "desc"` in the source). -/
inductive Direction where
  | asc
  | desc
  deriving DecidableEq, Repr

/-- The source `EventReadOptions`: `filter.types`, `cursor`, `direction`. -/
structure EventReadOptions where
  types : Option (List String) := none
  cursor : Option Nat := none
  direction : Option Direction := none
  deriving Repr

/-- The ordering used by every `orderBy(this.schema.created)` clause:
comparison on the `created` column only. -/
def createdLE (a b : EventRecord) : Prop := a.created ≤ b.created

instance : DecidableRel createdLE := fun a b =>
  inferInstanceAs (Decidable (a.created ≤ b.created))

instance : IsTotal EventRecord createdLE := ⟨fun a b => Nat.le_total a.created b.created⟩

instance : IsTrans EventRecord createdLE := ⟨fun _ _ _ hab hbc => Nat.le_trans hab hbc⟩

/-- `ORDER BY created`: stable sort on `created` (ties keep table order). -/
def orderByCreated (l : List EventRecord) : List EventRecord :=
  l.insertionSort createdLE

namespace EventProvider

/-- Source `#withTypes(types)`: `inArray(this.schema.type, types)`. -/
def withTypes (types : List String) (r : EventRecord) : Bool :=
  types.contains r.type

/-- Source `#withCursor(cursor, direction)`: `lt(created, cursor)` when the
direction is `"desc"`, otherwise `gt(created, cursor)`. -/
def withCursor (cursor : Nat) (direction : Option Direction) (r : EventRecord) : Bool :=
  match direction with
  | some .desc => decide (r.created < cursor)
  | _ => decide (cursor < r.created)

/-- Source `#withFilters(options)`: the conjunction of the optional type
filter and the optional cursor filter. -/
def withFilters (opts : EventReadOptions) (r : EventRecord) : Bool :=
  (match opts.types with
   | none => true
   | some ts => withTypes ts r) &&
  (match opts.cursor with
   | none => true
   | some c => withCursor c opts.direction r)

/-- Source `EventProvider.get(options)`: select with the option filters,
ordered by `created`. -/
def get (opts : EventReadOptions) (tbl : List EventRecord) : List EventRecord :=
  orderByCreated (tbl.filter (withFilters opts))

/-- Source `EventProvider.getByStream(stream, options)`: select rows of the
stream with the option filters, ordered by `created`. -/
def getByStream (stream : String) (opts : EventReadOptions) (tbl : List EventRecord) :
    List EventRecord :=
  orderByCreated (tbl.filter (fun r => r.stream == stream && withFilters opts r))

/-- Source `EventProvider.getByStreams(streams, options)`: select rows whose
stream is in the list, with the option filters, ordered by `created`. -/
def getByStreams (streams : List String) (opts : EventReadOptions) (tbl : List EventRecord) :
    List EventRecord :=
  orderByCreated (tbl.filter (fun r => streams.contains r.stream && withFilters opts r))

/-- Source `EventProvider.getById(id)`: `select ... where id = id`, one row. -/
def getById (id : String) (tbl : List EventRecord) : Option EventRecord :=
  tbl.find? (fun r => r.id == id)

/-- Source `EventProvider.checkOutdated({stream, type, created})`:
`count(*) > 0` over rows with equal `stream`, equal `type` and strictly
greater `created`. -/
def checkOutdated (tbl : List EventRecord) (r : EventRecord) : Bool :=
  tbl.any (fun e => e.stream == r.stream && e.type == r.type && decide (r.created < e.created))

end EventProvider

/-- A row of the `snapshots` table: `(name, stream, cursor, state)` with
primary key `(name, stream)`; `stream` holds the stream-or-context key. -/
structure SnapshotRow where
  name : String
  stream : String
  cursor : Nat
  state : String
  deriving DecidableEq, Repr, Inhabited

namespace SnapshotProvider

/-- Modelled from the spec: `SnapshotProvider.insert(name, key, cursor, state)`
is an upsert keyed by `(name, key)` (the provider source under
`providers/snapshot.ts` is not in the repository snapshot; the spec states
"insert ... (upsert)" and "At most one snapshot per (reducer_name, key);
createSnapshot replaces any existing row"). -/
def insert (tbl : List SnapshotRow) (name stream : String) (cursor : Nat) (state : String) :
    List SnapshotRow :=
  ⟨name, stream, cursor, state⟩ :: tbl.filter (fun s => !(s.name == name && s.stream == stream))

/-- Modelled from the spec: `SnapshotProvider.getByStream(name, key)` returns
the snapshot row for `(name, key)` or nothing (provider source not in the
repository snapshot). -/
def getByStream (tbl : List SnapshotRow) (name stream : String) : Option SnapshotRow :=
  tbl.find? (fun s => s.name == name && s.stream == stream)

/-- Modelled from the spec: `SnapshotProvider.remove(name, key)` deletes the
row for `(name, key)` unconditionally (provider source not in the repository
snapshot). -/
def remove (tbl : List SnapshotRow) (name stream : String) : List SnapshotRow :=
  tbl.filter (fun s => !(s.name == name && s.stream == stream))

end SnapshotProvider

/-- A row of the `contexts` table as observed through
`ContextProvider.getByKey`: an association of a context key with a stream. -/
structure ContextRow where
  key : String
  stream : String
  deriving DecidableEq, Repr, Inhabited

namespace ContextProvider

/-- Modelled from the spec: `ContextProvider.getByKey(key)` returns the
streams currently associated with the key (the provider source under
`providers/context.ts` is not in the repository snapshot; the contexts table
is embedded directly as its derived current set). -/
def getByKey (tbl : List ContextRow) (key : String) : List ContextRow :=
  tbl.filter (fun c => c.key == key)

end ContextProvider

/-- The persistent state of one event store: the three tables. -/
structure StoreState where
  events : List EventRecord
  contexts : List ContextRow
  snapshots : List SnapshotRow
  deriving DecidableEq, Repr, Inhabited

/-- Reducer kind: the source `Reducer.type`, `"stream" | "context"`. -/
inductive ReducerKind where
  | stream
  | context
  deriving DecidableEq, Repr

/-- The source `Reducer` descriptor: `{name, type, filter, reduce}`. The
left-fold `reduce(events, state?)` takes the fetched events and an optional
snapshot state; states are opaque (`String` here). -/
structure Reducer where
  name : String
  kind : ReducerKind
  filterTypes : Option (List String)
  reduce : List EventRecord → Option String → String

/-- Snapshot configuration of the store: `snapshot: "manual" | "auto"`. -/
inductive SnapshotMode where
  | manual
  | auto
  deriving DecidableEq, Repr

/-- The source `EventStatus` result of `getEventStatus`. -/
structure EventStatus where
  «exists» : Bool
  outdated : Bool
  deriving DecidableEq, Repr

namespace PostgresEventStore

/-- Source `PostgresEventStore.getEventStatus(event)`: if `getById` finds a
row, return `{exists: true, outdated: true}`; otherwise return
`{exists: false, outdated: await checkOutdated(event)}`. -/
def getEventStatus (tbl : List EventRecord) (event : EventRecord) : EventStatus :=
  match EventProvider.getById event.id tbl with
  | some _ => ⟨true, true⟩
  | none => ⟨false, EventProvider.checkOutdated tbl event⟩

/-- Source `PostgresEventStore.getEventsByContext(key, options)`: read the
context rows for the key; if none, return `[]`; otherwise fetch the events of
the associated streams. -/
def getEventsByContext (s : StoreState) (key : String) (opts : EventReadOptions) :
    List EventRecord :=
  let rows := ContextProvider.getByKey s.contexts key
  if rows.isEmpty then []
  else EventProvider.getByStreams (rows.map (fun row => row.stream)) opts s.events

/-- Source `PostgresEventStore.getSnapshot(streamOrContext, reducer)`: look up
`snapshots.getByStream(reducer.name, streamOrContext)`. -/
def getSnapshot (s : StoreState) (streamOrContext : String) (r : Reducer) :
    Option SnapshotRow :=
  SnapshotProvider.getByStream s.snapshots r.name streamOrContext

end PostgresEventStore

/-- One fan-out invocation: `projector.project(record, {hydrated, outdated})`
paired with `contextor.push(record)` for the same record. -/
structure FanoutCall where
  record : EventRecord
  hydrated : Bool
  outdated : Bool
  deriving DecidableEq, Repr

/-- Modelled from the spec: step 3 of the append protocol in
`pushEventRecord` (`push-event-record.ts` is not in the repository snapshot):
a record pushed with `hydrated = false` takes
`outdated = checkOutdated(record)`, while hydrated records bypass the probe
and take `outdated = false`. -/
def pushOutdatedFlag (tbl : List EventRecord) (r : EventRecord) (hydrated : Bool) : Bool :=
  if hydrated then false else EventProvider.checkOutdated tbl r

/-- Modelled from the spec: `pushEventRecordSequence(store, records)` (the
utility source `push-event-record-sequence.ts` is not in the repository
snapshot): validate and insert every record, in order, within the ambient
transaction; any validation failure aborts the whole transaction. Returns the
grown events table together with the inserted records, or the failing record.
Validators are opaque, passed as the predicate `valid`. -/
def pushEventRecordSequence (valid : EventRecord → Bool) :
    List EventRecord → List (EventRecord × Bool) →
    Except EventRecord (List EventRecord × List (EventRecord × Bool))
  | tbl, [] => .ok (tbl, [])
  | tbl, (r, h) :: rest =>
    if valid r then
      match pushEventRecordSequence valid (tbl ++ [r]) rest with
      | .ok (tbl2, ins) => .ok (tbl2, (r, h) :: ins)
      | .error e => .error e
    else .error r

namespace PostgresEventStore

/-- Source `PostgresEventStore.pushEvent(record, hydrated = true)`: the
hydrated flag the call actually uses; `none` embeds a call without the second
argument, which the TS default parameter turns into `true`. -/
def pushEventHydrated (arg : Option Bool) : Bool :=
  arg.getD true

/-- Source `PostgresEventStore.pushEventSequence(records)`, the inbound map:
`record.hydrated = record.hydrated === undefined ? true : record.hydrated`
applied to every record of the list. -/
def pushEventSequenceHydrated (records : List (EventRecord × Option Bool)) :
    List (EventRecord × Bool) :=
  records.map (fun p => (p.1, p.2.getD true))

/-- Source `PostgresEventStore.addEvent(event)`: it calls
`this.pushEvent(createEventRecord(event), false)` — this is the hydrated
argument it passes. -/
def addEventHydrated : Option Bool :=
  some false

/-- Source `PostgresEventStore.addEventSequence(events)`: it calls
`pushEventSequence` with `{record, hydrated: false}` for every event. -/
def addEventSequenceRecords (records : List EventRecord) :
    List (EventRecord × Option Bool) :=
  records.map (fun e => (e, some false))

/-- Source `PostgresEventStore.pushEventSequence(records)`: default each
unspecified `hydrated` flag to `true`, run `pushEventRecordSequence` inside a
single database transaction (all-or-nothing: when it fails the transaction
rolls back and the state is unchanged), then, after commit, run
`pushEventRecordUpdates` (fan-out) for each inserted record in order. The
second component lists the post-commit fan-out invocations in order; the
third is the record the aborted transaction reports through the `EventError`
hook. -/
def pushEventSequence (valid : EventRecord → Bool) (s : StoreState)
    (records : List (EventRecord × Option Bool)) :
    StoreState × List (EventRecord × Bool) × Option EventRecord :=
  match pushEventRecordSequence valid s.events (pushEventSequenceHydrated records) with
  | .ok (tbl2, ins) => ({ s with events := tbl2 }, ins, none)
  | .error e => (s, [], some e)

/-- Source `PostgresEventStore.replayEvents(stream?)`: fetch the stream's
events (or all events), then for each record in the returned order run
`contextor.push(event)` and
`projector.project(event, {hydrated: true, outdated: false})` together,
awaiting both before the next record. The contextor and projector sources are
not in the repository snapshot; per the spec the contextor only applies
context-table operations and the projector only drives in-process handlers,
so fan-out is abstracted as `ctxor` acting on the contexts table, and the
projector invocations are returned as a `FanoutCall` list in order. -/
def replayEvents (ctxor : EventRecord → List ContextRow → List ContextRow)
    (s : StoreState) (stream : Option String) : StoreState × List FanoutCall :=
  let events := match stream with
    | some st => EventProvider.getByStream st {} s.events
    | none => EventProvider.get {} s.events
  ({ s with contexts := events.foldl (fun ctbl e => ctxor e ctbl) s.contexts },
   events.map (fun e => ⟨e, true, false⟩))

/-- Source `PostgresEventStore.reduce(streamOrContext, reducer)`: read the
snapshot for `(reducer.name, streamOrContext)`, fetch the events past its
cursor (by stream or by context, with the reducer's type filter), return the
snapshot state or `undefined` when no events come back, otherwise fold and —
when the store is configured `snapshot: "auto"` — upsert a snapshot at the
last event's `created`. The source's snapshot write passes the free variable
`name`, which is not bound in the method (the reducer's name would be
`reducer.name`); its runtime value is taken here as the argument `nameVar`. -/
def reduce (nameVar : String) (snapshotMode : SnapshotMode) (s : StoreState)
    (streamOrContext : String) (r : Reducer) : Option String × StoreState :=
  let snapshot := getSnapshot s streamOrContext r
  let cursor := snapshot.map (fun sn => sn.cursor)
  let state := snapshot.map (fun sn => sn.state)
  let events := match r.kind with
    | .stream => EventProvider.getByStream streamOrContext ⟨r.filterTypes, cursor, none⟩ s.events
    | .context => getEventsByContext s streamOrContext ⟨r.filterTypes, cursor, none⟩
  if events.isEmpty then
    match snapshot with
    | some sn => (some sn.state, s)
    | none => (none, s)
  else
    let result := r.reduce events state
    match snapshotMode with
    | .auto =>
      let snapshots2 :=
        SnapshotProvider.insert s.snapshots nameVar streamOrContext
          events.getLast!.created result
      (some result, { s with snapshots := snapshots2 })
    | .manual => (some result, s)

/-- The record set `PostgresEventStore.createSnapshot(streamOrContext, reducer)`
computes from scratch: all matching events by stream or by context with the
reducer's type filter and no cursor. -/
def createSnapshotEvents (s : StoreState) (streamOrContext : String) (r : Reducer) :
    List EventRecord :=
  match r.kind with
  | .stream => EventProvider.getByStream streamOrContext ⟨r.filterTypes, none, none⟩ s.events
  | .context => getEventsByContext s streamOrContext ⟨r.filterTypes, none, none⟩

/-- Source `PostgresEventStore.createSnapshot(streamOrContext, reducer)`: when
the record set is empty, return without touching the snapshots table;
otherwise upsert `(reducer.name, streamOrContext, last.created, reduce(events))`
(here `name` IS bound — it is destructured from the reducer). -/
def createSnapshot (s : StoreState) (streamOrContext : String) (r : Reducer) : StoreState :=
  if (createSnapshotEvents s streamOrContext r).isEmpty then s
  else
    let events := createSnapshotEvents s streamOrContext r
    let snapshots2 :=
      SnapshotProvider.insert s.snapshots r.name streamOrContext
        events.getLast!.created (r.reduce events none)
    { s with snapshots := snapshots2 }

end PostgresEventStore

namespace SQLiteEventStore

/-- Source `SQLiteEventStore.reduce(stream, reducer)`: read the snapshot for
`(reducer.name, stream)`, fetch the stream's events past its cursor (no type
filter is applied in this source), return `undefined` when no events come
back — even when a snapshot exists — and otherwise fold. -/
def reduce (s : StoreState) (stream : String) (r : Reducer) : Option String :=
  let snapshot := SnapshotProvider.getByStream s.snapshots r.name stream
  let cursor := snapshot.map (fun sn => sn.cursor)
  let state := snapshot.map (fun sn => sn.state)
  let events := EventProvider.getByStream stream ⟨none, cursor, none⟩ s.events
  if events.isEmpty then none
  else some (r.reduce events state)

end SQLiteEventStore

/-- The ordering the specification claims for query results: any two adjacent
returned records either increase strictly in `created`, or tie on `created`
and increase strictly in `id` (string order, as ids are strings). -/
def createdIdOrdered (l : List EventRecord) : Prop :=
  l.Chain' (fun a b => a.created < b.created ∨ (a.created = b.created ∧ a.id < b.id))

/-- Sample rows: `rA` and `rB` share `created = 5` in different streams with
ids out of string order relative to their table order. -/
def rA : EventRecord := ⟨"a", "s2", "t", "", "", 5, 5⟩

/-- Sample row in stream `s1` at `created = 5`. -/
def rB : EventRecord := ⟨"b", "s1", "t", "", "", 5, 5⟩

/-- Sample row in stream `s1` at `created = 1`. -/
def rC : EventRecord := ⟨"c", "s1", "t", "", "", 1, 1⟩

/-- Sample row in stream `s1` at `created = 3`. -/
def rD : EventRecord := ⟨"d", "s1", "t", "", "", 3, 3⟩

/-- Sample row whose `type` is `"u"` (rejected by `validT`). -/
def rX : EventRecord := ⟨"x", "s1", "u", "", "", 7, 7⟩

/-- Sample validator: accepts exactly the records of type `"t"`. -/
def validT : EventRecord → Bool := fun r => r.type == "t"

/-- Sample stream reducer named `"counter"`: folds events to their count. -/
def counterReducer : Reducer := ⟨"counter", .stream, none, fun evs _ => toString evs.length⟩

/-- The empty store. -/
def st0 : StoreState := ⟨[], [], []⟩

/-- Store holding one event in stream `s1` and no snapshots. -/
def st1 : StoreState := ⟨[rC], [], []⟩

/-- Store holding one event at `created = 1` and a snapshot for
`("counter", "s1")` at cursor `1` with state `"S"`: no events lie past the
snapshot cursor. -/
def st2 : StoreState := ⟨[rC], [], [⟨"counter", "s1", 1, "S"⟩]⟩

/-- Store with no events but an existing snapshot row for `("counter", "s1")`. -/
def st3 : StoreState := ⟨[], [], [⟨"counter", "s1", 0, "Z"⟩]⟩

/-- C6: `checkOutdated(R)` returns true if and only if the events table
contains some record with the same stream as `R`, the same type as `R`, and a
`created` value strictly greater than `R.created`. -/
theorem checkOutdated_iff (tbl : List EventRecord) (r : EventRecord) :
    EventProvider.checkOutdated tbl r = true ↔
      ∃ e ∈ tbl, e.stream = r.stream ∧ e.type = r.type ∧ r.created < e.created := by
  simp [EventProvider.checkOutdated, List.any_eq_true, and_assoc]

/-- C8: when the event's id already exists, `getEventStatus` returns
`{exists: true, outdated: true}` with the outdated flag hardcoded, and
`checkOutdated` only shapes the result when the id is absent. -/
theorem getEventStatus_hardcodes_outdated :
    (∀ tbl e, (EventProvider.getById e.id tbl).isSome = true →
      PostgresEventStore.getEventStatus tbl e = ⟨true, true⟩) ∧
    (∀ tbl e, EventProvider.getById e.id tbl = none →
      PostgresEventStore.getEventStatus tbl e = ⟨false, EventProvider.checkOutdated tbl e⟩) := by
  constructor
  · intro tbl e h
    unfold PostgresEventStore.getEventStatus
    rcases hx : EventProvider.getById e.id tbl with _ | rec
    · rw [hx] at h
      simp at h
    · simp [hx]
  · intro tbl e h
    unfold PostgresEventStore.getEventStatus
    simp [h]

/-- Witness for C8: a store containing `rB` classifies `rB` as
`{exists: true, outdated: true}`; the empty store classifies `rA` by
`checkOutdated`. -/
theorem getEventStatus_hardcodes_outdated_witness :
    PostgresEventStore.getEventStatus [rB] rB = ⟨true, true⟩ ∧
    PostgresEventStore.getEventStatus [] rA = ⟨false, EventProvider.checkOutdated [] rA⟩ :=
  ⟨getEventStatus_hardcodes_outdated.1 [rB] rB (by decide),
   getEventStatus_hardcodes_outdated.2 [] rA (by decide)⟩

/-- C10: when `createSnapshot` finds no matching events it returns without
writing: the store — in particular the snapshots table and any existing row
for `(reducer.name, key)` — is unchanged. -/
theorem createSnapshot_no_match_no_write (s : StoreState) (k : String) (r : Reducer)
    (h : PostgresEventStore.createSnapshotEvents s k r = []) :
    PostgresEventStore.createSnapshot s k r = s := by
  unfold PostgresEventStore.createSnapshot
  rw [h]
  rfl

/-- Witness for C10: a store with no events but an existing snapshot row for
`("counter", "s1")` is left exactly as it was, row included. -/
theorem createSnapshot_no_match_no_write_witness :
    PostgresEventStore.createSnapshot st3 "s1" counterReducer = st3 ∧
    st3.snapshots = [⟨"counter", "s1", 0, "Z"⟩] :=
  ⟨createSnapshot_no_match_no_write st3 "s1" counterReducer (by decide), by decide⟩

/-- C1 (refuting evaluation): with `snapshot: "auto"`, a successful reduce
that folded one event computes the right state and cursor, but the snapshot
row is keyed by the value of the free variable `name` (embedded as the
`nameVar` argument, here `""`) — not by `reducer.name` — so the store holds
no snapshot for `("counter", "s1")` afterwards. -/
theorem reduce_auto_snapshot_key_is_free_name :
    (PostgresEventStore.reduce "" .auto st1 "s1" counterReducer).1 = some "1" ∧
    (PostgresEventStore.reduce "" .auto st1 "s1" counterReducer).2.snapshots =
      [⟨"", "s1", 1, "1"⟩] ∧
    PostgresEventStore.getSnapshot
      (PostgresEventStore.reduce "" .auto st1 "s1" counterReducer).2 "s1" counterReducer =
      none :=
  ⟨by decide, by decide, by decide⟩

/-- C2 (evaluations): with no events past the snapshot cursor, the Postgres
reduce returns the snapshot state, and with no events and no snapshot it
returns `undefined` — as claimed — but the SQLite reduce returns `undefined`
even though the snapshot `("counter", "s1", 1, "S")` exists. -/
theorem reduce_no_events_paths :
    PostgresEventStore.reduce "" .manual st2 "s1" counterReducer = (some "S", st2) ∧
    PostgresEventStore.reduce "" .manual st0 "s1" counterReducer = (none, st0) ∧
    SQLiteEventStore.reduce st2 "s1" counterReducer = none :=
  ⟨by decide, by decide, by decide⟩

/-- C5: `replayEvents` leaves the events table (and the snapshots table)
unchanged for every contextor behaviour, and performs exactly one fan-out per
fetched record, in query order, with `{hydrated: true, outdated: false}`. -/
theorem replayEvents_frame_and_fanout
    (ctxor : EventRecord → List ContextRow → List ContextRow)
    (s : StoreState) (stream : Option String) :
    (PostgresEventStore.replayEvents ctxor s stream).1.events = s.events ∧
    (PostgresEventStore.replayEvents ctxor s stream).1.snapshots = s.snapshots ∧
    (PostgresEventStore.replayEvents ctxor s stream).2 =
      (match stream with
       | some st => EventProvider.getByStream st {} s.events
       | none => EventProvider.get {} s.events).map (fun e => ⟨e, true, false⟩) :=
  ⟨rfl, rfl, rfl⟩

/-- C9: `pushEvent` without its hydrated argument uses `true` (bypassing the
outdatedness probe), `pushEventSequence` defaults each unspecified flag the
same way, and the `addEvent`/`addEventSequence` wrappers pass
`hydrated = false` (so the probe runs). -/
theorem hydrated_defaults (tbl : List EventRecord) (r : EventRecord) (b : Bool)
    (records : List (EventRecord × Option Bool)) (evs : List EventRecord) :
    PostgresEventStore.pushEventHydrated none = true ∧
    PostgresEventStore.pushEventHydrated (some b) = b ∧
    pushOutdatedFlag tbl r (PostgresEventStore.pushEventHydrated none) = false ∧
    PostgresEventStore.pushEventSequenceHydrated records =
      records.map (fun p => (p.1, PostgresEventStore.pushEventHydrated p.2)) ∧
    PostgresEventStore.pushEventHydrated PostgresEventStore.addEventHydrated = false ∧
    pushOutdatedFlag tbl r
        (PostgresEventStore.pushEventHydrated PostgresEventStore.addEventHydrated) =
      EventProvider.checkOutdated tbl r ∧
    (PostgresEventStore.addEventSequenceRecords evs).map
        (fun p => PostgresEventStore.pushEventHydrated p.2) =
      evs.map (fun _ => false) := by
  refine ⟨rfl, rfl, rfl, rfl, rfl, rfl, ?_⟩
  simp [PostgresEventStore.addEventSequenceRecords, PostgresEventStore.pushEventHydrated,
    List.map_map, Function.comp_def]

/-- Counterexample to C3 as stated: the queries order by `created` alone, so
two records in different streams sharing `created = 5` come back in table
order `[rB, rA]` with ids `"b", "a"` — adjacent records that neither increase
in `created` nor tie-break ascending on `id`. -/
theorem get_not_createdIdOrdered :
    ¬ createdIdOrdered (EventProvider.get {} [rB, rA]) := by
  have h : EventProvider.get {} [rB, rA] = [rB, rA] := by decide
  intro hord
  rw [createdIdOrdered, h] at hord
  simp [List.chain'_cons, rA, rB] at hord
  revert hord
  decide

/-- A stable sort on `created` of a list with pairwise distinct `created`
values is strictly increasing in `created`. -/
theorem orderByCreated_pairwise_lt (l : List EventRecord)
    (h : l.Pairwise (fun a b => a.created ≠ b.created)) :
    (orderByCreated l).Pairwise (fun a b => a.created < b.created) := by
  have hsort : List.Sorted createdLE (orderByCreated l) :=
    List.sorted_insertionSort createdLE l
  have hperm : List.Perm (orderByCreated l) l := List.perm_insertionSort createdLE l
  have hne : (orderByCreated l).Pairwise (fun a b => a.created ≠ b.created) :=
    (hperm.pairwise_iff (fun hab => hab.symm)).mpr h
  exact (hsort.and hne).imp (fun hab => lt_of_le_of_ne hab.1 hab.2)

/-- C3 amended: every `get`/`getByStream`/`getByStreams` result is ordered
nondecreasing in `created` (the queries do not order by `id`, so equal
`created` values may appear in any table order); and a `getByStream` result
is strictly `(created, id)`-ordered whenever the stream's rows have pairwise
distinct `created` values (the `(stream, created)` uniqueness invariant). -/
theorem queries_sorted_by_created :
    (∀ opts tbl, List.Sorted createdLE (EventProvider.get opts tbl)) ∧
    (∀ st opts tbl, List.Sorted createdLE (EventProvider.getByStream st opts tbl)) ∧
    (∀ sts opts tbl, List.Sorted createdLE (EventProvider.getByStreams sts opts tbl)) ∧
    (∀ st opts tbl,
      (tbl.filter (fun r => r.stream == st)).Pairwise (fun a b => a.created ≠ b.created) →
      createdIdOrdered (EventProvider.getByStream st opts tbl)) := by
  refine ⟨fun opts tbl => List.sorted_insertionSort createdLE _,
    fun st opts tbl => List.sorted_insertionSort createdLE _,
    fun sts opts tbl => List.sorted_insertionSort createdLE _,
    fun st opts tbl hdist => ?_⟩
  have hf : tbl.filter (fun r => r.stream == st && EventProvider.withFilters opts r)
      = (tbl.filter (EventProvider.withFilters opts)).filter (fun r => r.stream == st) :=
    (List.filter_filter _ tbl).symm
  have hsub : List.Sublist
      (tbl.filter (fun r => r.stream == st && EventProvider.withFilters opts r))
      (tbl.filter (fun r => r.stream == st)) := by
    rw [hf]
    exact List.Sublist.filter _ (List.filter_sublist tbl)
  have hdist2 := hdist.sublist hsub
  exact (orderByCreated_pairwise_lt _ hdist2).chain'.imp (fun a b hab => Or.inl hab)

/-- Witness for C3 (amended): stream `s1` holds rows at `created = 1, 3` —
pairwise distinct — and the query result is `(created, id)`-ordered. -/
theorem queries_sorted_by_created_witness :
    (([rC, rD] : List EventRecord).filter (fun r => r.stream == "s1")).Pairwise
      (fun a b => a.created ≠ b.created) ∧
    createdIdOrdered (EventProvider.getByStream "s1" {} [rC, rD]) :=
  ⟨by decide, queries_sorted_by_created.2.2.2 "s1" {} [rC, rD] (by decide)⟩

/-- When every record passes validation, the transactional sequence insert
appends all records in order and reports all of them as inserted. -/
theorem pushEventRecordSequence_all_valid (valid : EventRecord → Bool)
    (l : List (EventRecord × Bool)) :
    ∀ tbl, (∀ p ∈ l, valid p.1 = true) →
      pushEventRecordSequence valid tbl l = .ok (tbl ++ l.map (fun p => p.1), l) := by
  induction l with
  | nil => intro tbl _; simp [pushEventRecordSequence]
  | cons q rest ih =>
    intro tbl hv
    obtain ⟨r, hb⟩ := q
    have hr : valid r = true := hv (r, hb) (List.mem_cons_self _ _)
    have ihh := ih (tbl ++ [r]) (fun p hp => hv p (List.mem_cons_of_mem _ hp))
    simp [pushEventRecordSequence, hr, ihh]

/-- When some record fails validation, the transactional sequence insert
signals an error (whatever the table contents), so the transaction aborts. -/
theorem pushEventRecordSequence_invalid (valid : EventRecord → Bool)
    (l : List (EventRecord × Bool)) :
    ∀ tbl, (∃ p ∈ l, valid p.1 = false) →
      ∃ e, pushEventRecordSequence valid tbl l = .error e := by
  induction l with
  | nil => intro tbl h; simp at h
  | cons q rest ih =>
    intro tbl h
    obtain ⟨r, hb⟩ := q
    by_cases hr : valid r = true
    · have hrest : ∃ p ∈ rest, valid p.1 = false := by
        obtain ⟨p, hp, hvp⟩ := h
        rcases List.mem_cons.mp hp with heq | hmem
        · subst heq; simp [hr] at hvp
        · exact ⟨p, hmem, hvp⟩
      obtain ⟨e, he⟩ := ih (tbl ++ [r]) hrest
      exact ⟨e, by simp [pushEventRecordSequence, hr, he]⟩
    · exact ⟨r, by simp [pushEventRecordSequence, hr]⟩

/-- C4: if any record of the sequence fails validation, the whole transaction
aborts — the store is unchanged, no fan-out happens and one record is
reported via the `EventError` hook; if all records pass, every record is
inserted and fan-out runs, after the transaction, exactly for the inserted
records in the original input order. -/
theorem pushEventSequence_atomic (valid : EventRecord → Bool) (s : StoreState)
    (records : List (EventRecord × Option Bool)) :
    ((∃ p ∈ records, valid p.1 = false) →
      ∃ e, PostgresEventStore.pushEventSequence valid s records = (s, [], some e)) ∧
    ((∀ p ∈ records, valid p.1 = true) →
      PostgresEventStore.pushEventSequence valid s records =
        ({ s with events := s.events ++ records.map (fun p => p.1) },
         PostgresEventStore.pushEventSequenceHydrated records, none)) := by
  constructor
  · intro h
    have h2 : ∃ p ∈ PostgresEventStore.pushEventSequenceHydrated records,
        valid p.1 = false := by
      obtain ⟨p, hp, hvp⟩ := h
      exact ⟨(p.1, p.2.getD true), List.mem_map_of_mem _ hp, hvp⟩
    obtain ⟨e, he⟩ := pushEventRecordSequence_invalid valid _ s.events h2
    exact ⟨e, by simp [PostgresEventStore.pushEventSequence, he]⟩
  · intro h
    have h2 : ∀ p ∈ PostgresEventStore.pushEventSequenceHydrated records,
        valid p.1 = true := by
      intro p hp
      obtain ⟨q, hq, rfl⟩ := List.mem_map.mp hp
      exact h q hq
    have hr := pushEventRecordSequence_all_valid valid _ s.events h2
    have hm : (PostgresEventStore.pushEventSequenceHydrated records).map (fun p => p.1)
        = records.map (fun p => p.1) := by
      simp [PostgresEventStore.pushEventSequenceHydrated, List.map_map, Function.comp_def]
    simp [PostgresEventStore.pushEventSequence, hr, hm]

/-- Witness for C4: a two-record sequence whose second record has the
rejected type `"u"` aborts with the empty store unchanged and no fan-out,
while an all-valid sequence inserts both records. -/
theorem pushEventSequence_atomic_witness :
    (∃ e, PostgresEventStore.pushEventSequence validT st0 [(rC, none), (rX, some false)] =
      (st0, [], some e)) ∧
    PostgresEventStore.pushEventSequence validT st0 [(rC, none), (rD, some false)] =
      ({ st0 with
          events := st0.events ++
            ([(rC, (none : Option Bool)), (rD, some false)]).map (fun p => p.1) },
       PostgresEventStore.pushEventSequenceHydrated [(rC, none), (rD, some false)], none) :=
  ⟨(pushEventSequence_atomic validT st0 _).1 (by decide),
   (pushEventSequence_atomic validT st0 _).2 (by decide)⟩

/-- A record passing the option filters with a cursor set satisfies the
strict cursor bound of the requested direction. -/
theorem withFilters_cursor (opts : EventReadOptions) (c : Nat) (r : EventRecord)
    (hc : opts.cursor = some c) (h : EventProvider.withFilters opts r = true) :
    match opts.direction with
    | some .desc => r.created < c
    | _ => c < r.created := by
  unfold EventProvider.withFilters at h
  rw [hc] at h
  rw [Bool.and_eq_true] at h
  have h2 : EventProvider.withCursor c opts.direction r = true := h.2
  unfold EventProvider.withCursor at h2
  rcases hd : opts.direction with _ | d
  · rw [hd] at h2
    exact of_decide_eq_true h2
  · cases d
    · rw [hd] at h2
      exact of_decide_eq_true h2
    · rw [hd] at h2
      exact of_decide_eq_true h2

/-- C7: every record returned by `get`, `getByStream` or `getByStreams` under
a cursor option has `created` strictly greater than the cursor when the
direction is ascending or unspecified, and strictly less when descending. -/
theorem cursor_reads_strict (opts : EventReadOptions) (tbl : List EventRecord)
    (c : Nat) (r : EventRecord) (hc : opts.cursor = some c) :
    (r ∈ EventProvider.get opts tbl →
      match opts.direction with
      | some .desc => r.created < c
      | _ => c < r.created) ∧
    (∀ st, r ∈ EventProvider.getByStream st opts tbl →
      match opts.direction with
      | some .desc => r.created < c
      | _ => c < r.created) ∧
    (∀ sts, r ∈ EventProvider.getByStreams sts opts tbl →
      match opts.direction with
      | some .desc => r.created < c
      | _ => c < r.created) := by
  refine ⟨fun h => ?_, fun st h => ?_, fun sts h => ?_⟩
  · have h1 : r ∈ tbl.filter (EventProvider.withFilters opts) :=
      (List.mem_insertionSort createdLE).mp h
    exact withFilters_cursor opts c r hc (List.of_mem_filter h1)
  · have h1 : r ∈ tbl.filter (fun x => x.stream == st && EventProvider.withFilters opts x) :=
      (List.mem_insertionSort createdLE).mp h
    have h2 := List.of_mem_filter h1
    rw [Bool.and_eq_true] at h2
    exact withFilters_cursor opts c r hc h2.2
  · have h1 : r ∈ tbl.filter (fun x => sts.contains x.stream && EventProvider.withFilters opts x) :=
      (List.mem_insertionSort createdLE).mp h
    have h2 := List.of_mem_filter h1
    rw [Bool.and_eq_true] at h2
    exact withFilters_cursor opts c r hc h2.2

/-- Witness for C7: reading with cursor `2` ascending returns `rD`
(`created = 3`), and `2 < 3`. -/
theorem cursor_reads_strict_witness :
    rD ∈ EventProvider.get ⟨none, some 2, none⟩ [rC, rD] ∧ 2 < rD.created :=
  ⟨by decide, (cursor_reads_strict ⟨none, some 2, none⟩ [rC, rD] 2 rD rfl).1 (by decide)⟩
